import Mathlib

/-!
Shallow embedding of the shopping-cart state layer of the
`gemini-christmas-tree-decorator` repository.

The embedding covers:
* the cart data model from `src/types.ts` (`CartItem`, `Cart`,
  `calculateCartTotal`);
* the mock-backend cart mutations and queries from `src/convex/cart.ts`
  (namespace `Convex`) and `src/convex-dev/cart.ts` (namespace `ConvexDev`);
* the order-snapshot behaviour of `src/convex-dev/orders.ts` and the
  `handleCheckout` callback of the main app component, including a small
  heap model that makes JavaScript object identity (in-place mutation of
  a cart that an order snapshot aliases) explicit;
* the listener/notification pattern (`notifyListeners`, `subscribe`)
  as an event trace.

JavaScript `number` values (quantities, prices in cents, timestamps) are
modelled as `Int`; nondeterministic inputs (`Date.now()`, generated ids)
are explicit parameters.  The in-memory `Map` keyed by session id is
modelled as a function `String → Option Cart`.
-/

/-- `CartItemType` from `src/types.ts`: `'tree' | 'ornament' | 'topper'`. -/
inductive CartItemType where
  | tree
  | ornament
  | topper
deriving DecidableEq, Repr

/-- `CartItemCustomization` from `src/types.ts`.  Geometric coordinates are
modelled as integer triples; only their equality is ever observed. -/
structure CartItemCustomization where
  color : String
  position : Option (Int × Int × Int) := none
  rotation : Option (Int × Int × Int) := none
deriving DecidableEq, Repr

/-- `CartItem` from `src/types.ts`. -/
structure CartItem where
  id : String
  productType : CartItemType
  productId : String
  quantity : Int
  unitPrice : Int
  customization : Option CartItemCustomization := none
deriving DecidableEq, Repr

/-- `Cart` from `src/types.ts`. -/
structure Cart where
  id : String
  sessionId : String
  items : List CartItem
  subtotal : Int
  createdAt : Int
  updatedAt : Int
deriving DecidableEq, Repr

instance : Inhabited Cart := ⟨⟨"", "", [], 0, 0, 0⟩⟩

/-- `calculateCartTotal` from `src/types.ts`:
`items.reduce((sum, item) => sum + item.unitPrice * item.quantity, 0)`. -/
def calculateCartTotal (items : List CartItem) : Int :=
  items.foldl (fun sum item => sum + item.unitPrice * item.quantity) 0

/-- Argument record of `addItem` (both cart modules take the same record). -/
structure AddItemArgs where
  sessionId : String
  productType : CartItemType
  productId : String
  quantity : Int
  unitPrice : Int
  customization : Option CartItemCustomization := none

/-- The in-memory cart store `Map<string, Cart>` keyed by session id. -/
def Store : Type := String → Option Cart

/-- `cartStore.get(sessionId)`. -/
def storeGet (st : Store) (sessionId : String) : Option Cart :=
  st sessionId

/-- `cartStore.set(sessionId, cart)` (also models in-place update of the
cart object already referenced from the map). -/
def storeSet (st : Store) (sessionId : String) (cart : Cart) : Store :=
  fun k => if k = sessionId then some cart else st k

/-- `cartStore.delete(sessionId)`. -/
def storeDelete (st : Store) (sessionId : String) : Store :=
  fun k => if k = sessionId then none else st k

/-- The empty store. -/
def emptyStore : Store := fun _ => none

namespace Convex

/-- The `newItem` record built at the top of `addItem`
(`src/convex/cart.ts`, lines 39-46); the generated item id is a
parameter. -/
def mkNewItem (args : AddItemArgs) (newItemId : String) : CartItem :=
  { id := newItemId
    productType := args.productType
    productId := args.productId
    quantity := args.quantity
    unitPrice := args.unitPrice
    customization := args.customization }

/-- The `findIndex` callback of `addItem` (`src/convex/cart.ts`,
lines 50-61): an existing item matches when its productId equals the
argument productId and either the added product is a tree/topper, or it is
an ornament with customization whose color and position (compared via
`JSON.stringify`, with an absent customization contributing `undefined`)
coincide with the existing item's. -/
def matchesExisting (args : AddItemArgs) (item : CartItem) : Bool :=
  if item.productId ≠ args.productId then false
  else if args.productType = .tree ∨ args.productType = .topper then true
  else
    match args.customization with
    | some c =>
        decide (item.customization.map (fun cu => cu.color) = some c.color) &&
        decide (item.customization.bind (fun cu => cu.position) = c.position)
    | none => false

/-- The update performed by `addItem` on an existing cart
(`src/convex/cart.ts`, lines 48-71): trees and toppers replace the first
item with a matching productId, everything else is appended, and the
subtotal is recomputed. -/
def addItemToCart (cart : Cart) (args : AddItemArgs) (newItemId : String)
    (now : Int) : Cart :=
  let newItem := mkNewItem args newItemId
  let existingIndex := cart.items.findIdx (matchesExisting args)
  let items :=
    if existingIndex < cart.items.length ∧
        (args.productType = .tree ∨ args.productType = .topper) then
      cart.items.set existingIndex newItem
    else
      cart.items ++ [newItem]
  { cart with
      items := items
      subtotal := calculateCartTotal items
      updatedAt := now }

/-- The fresh cart built by `addItem` when the session has no cart
(`src/convex/cart.ts`, lines 73-80). -/
def mkNewCart (args : AddItemArgs) (newItemId newCartId : String)
    (now : Int) : Cart :=
  { id := newCartId
    sessionId := args.sessionId
    items := [mkNewItem args newItemId]
    subtotal := args.unitPrice * args.quantity
    createdAt := now
    updatedAt := now }

/-- `addItem` from `src/convex/cart.ts`: returns the updated store and the
returned cart. -/
def addItem (st : Store) (args : AddItemArgs) (newItemId newCartId : String)
    (now : Int) : Store × Cart :=
  match storeGet st args.sessionId with
  | some cart =>
      let cart := addItemToCart cart args newItemId now
      (storeSet st args.sessionId cart, cart)
  | none =>
      let cart := mkNewCart args newItemId newCartId now
      (storeSet st args.sessionId cart, cart)

/-- The update performed by `removeItem` on an existing cart
(`src/convex/cart.ts`, lines 96-98). -/
def removeFromCart (cart : Cart) (itemId : String) (now : Int) : Cart :=
  let items := cart.items.filter (fun item => item.id ≠ itemId)
  { cart with
      items := items
      subtotal := calculateCartTotal items
      updatedAt := now }

/-- `removeItem` from `src/convex/cart.ts`: returns `null` and leaves the
store untouched when the session has no cart. -/
def removeItem (st : Store) (sessionId itemId : String) (now : Int) :
    Store × Option Cart :=
  match storeGet st sessionId with
  | none => (st, none)
  | some cart =>
      let cart := removeFromCart cart itemId now
      (storeSet st sessionId cart, some cart)

/-- The update performed by `updateQuantity` on an existing cart
(`src/convex/cart.ts`, lines 116-126): only when the item is found are the
items, subtotal and `updatedAt` touched (the found item is mutated in
place, i.e. the first item with that id is replaced). -/
def updateQuantityInCart (cart : Cart) (itemId : String) (quantity : Int)
    (now : Int) : Cart :=
  match cart.items.find? (fun i => i.id = itemId) with
  | some item =>
      let items :=
        if quantity ≤ 0 then
          cart.items.filter (fun i => i.id ≠ itemId)
        else
          cart.items.set (cart.items.findIdx (fun i => i.id = itemId))
            { item with quantity := quantity }
      { cart with
          items := items
          subtotal := calculateCartTotal items
          updatedAt := now }
  | none => cart

/-- `updateQuantity` from `src/convex/cart.ts`. -/
def updateQuantity (st : Store) (sessionId itemId : String) (quantity : Int)
    (now : Int) : Store × Option Cart :=
  match storeGet st sessionId with
  | none => (st, none)
  | some cart =>
      match cart.items.find? (fun i => i.id = itemId) with
      | some _ =>
          let cart := updateQuantityInCart cart itemId quantity now
          (storeSet st sessionId cart, some cart)
      | none => (st, some cart)

/-- `clear` from `src/convex/cart.ts`. -/
def clear (st : Store) (sessionId : String) : Store :=
  storeDelete st sessionId

/-- `get` from `src/convex/cart.ts`. -/
def get (st : Store) (sessionId : String) : Option Cart :=
  storeGet st sessionId

/-- `getItemCount` from `src/convex/cart.ts`. -/
def getItemCount (st : Store) (sessionId : String) : Int :=
  match storeGet st sessionId with
  | none => 0
  | some cart => cart.items.foldl (fun sum item => sum + item.quantity) 0

/-- `hasTree` from `src/convex/cart.ts`. -/
def hasTree (st : Store) (sessionId : String) : Bool :=
  match storeGet st sessionId with
  | none => false
  | some cart => cart.items.any (fun item => item.productType = .tree)

/-- `getTree` from `src/convex/cart.ts`. -/
def getTree (st : Store) (sessionId : String) : Option CartItem :=
  match storeGet st sessionId with
  | none => none
  | some cart => cart.items.find? (fun item => item.productType = .tree)

end Convex

namespace ConvexDev

/-- The `newItem` record built at the top of `addItem`
(`src/convex-dev/cart.ts`, lines 72-79). -/
def mkNewItem (args : AddItemArgs) (newItemId : String) : CartItem :=
  { id := newItemId
    productType := args.productType
    productId := args.productId
    quantity := args.quantity
    unitPrice := args.unitPrice
    customization := args.customization }

/-- The `findIndex` callback of `addItem` (`src/convex-dev/cart.ts`,
lines 83-94); textually identical to the one in `src/convex/cart.ts`. -/
def matchesExisting (args : AddItemArgs) (item : CartItem) : Bool :=
  if item.productId ≠ args.productId then false
  else if args.productType = .tree ∨ args.productType = .topper then true
  else
    match args.customization with
    | some c =>
        decide (item.customization.map (fun cu => cu.color) = some c.color) &&
        decide (item.customization.bind (fun cu => cu.position) = c.position)
    | none => false

/-- The update performed by `addItem` on an existing cart
(`src/convex-dev/cart.ts`, lines 81-104). -/
def addItemToCart (cart : Cart) (args : AddItemArgs) (newItemId : String)
    (now : Int) : Cart :=
  let newItem := mkNewItem args newItemId
  let existingIndex := cart.items.findIdx (matchesExisting args)
  let items :=
    if existingIndex < cart.items.length ∧
        (args.productType = .tree ∨ args.productType = .topper) then
      cart.items.set existingIndex newItem
    else
      cart.items ++ [newItem]
  { cart with
      items := items
      subtotal := calculateCartTotal items
      updatedAt := now }

/-- The fresh cart built by `addItem` when the session has no cart
(`src/convex-dev/cart.ts`, lines 106-113). -/
def mkNewCart (args : AddItemArgs) (newItemId newCartId : String)
    (now : Int) : Cart :=
  { id := newCartId
    sessionId := args.sessionId
    items := [mkNewItem args newItemId]
    subtotal := args.unitPrice * args.quantity
    createdAt := now
    updatedAt := now }

/-- `addItem` from `src/convex-dev/cart.ts` (localStorage persistence in
`notifyListeners` aside). -/
def addItem (st : Store) (args : AddItemArgs) (newItemId newCartId : String)
    (now : Int) : Store × Cart :=
  match storeGet st args.sessionId with
  | some cart =>
      let cart := addItemToCart cart args newItemId now
      (storeSet st args.sessionId cart, cart)
  | none =>
      let cart := mkNewCart args newItemId newCartId now
      (storeSet st args.sessionId cart, cart)

/-- `removeItem` from `src/convex-dev/cart.ts` (lines 125-142): builds a
fresh `updatedCart` record from the filtered items and stores it. -/
def removeItem (st : Store) (sessionId itemId : String) (now : Int) :
    Store × Option Cart :=
  match storeGet st sessionId with
  | none => (st, none)
  | some existingCart =>
      let newItems := existingCart.items.filter (fun item => item.id ≠ itemId)
      let updatedCart : Cart :=
        { existingCart with
            items := newItems
            subtotal := calculateCartTotal newItems
            updatedAt := now }
      (storeSet st sessionId updatedCart, some updatedCart)

/-- `updateQuantity` from `src/convex-dev/cart.ts` (lines 148-179): unlike
the `src/convex/cart.ts` version it does not look the item up first; it
always filters/maps, recomputes the subtotal and refreshes `updatedAt`. -/
def updateQuantity (st : Store) (sessionId itemId : String) (quantity : Int)
    (now : Int) : Store × Option Cart :=
  match storeGet st sessionId with
  | none => (st, none)
  | some existingCart =>
      let newItems :=
        if quantity ≤ 0 then
          existingCart.items.filter (fun i => i.id ≠ itemId)
        else
          existingCart.items.map (fun item =>
            if item.id = itemId then { item with quantity := quantity } else item)
      let updatedCart : Cart :=
        { existingCart with
            items := newItems
            subtotal := calculateCartTotal newItems
            updatedAt := now }
      (storeSet st sessionId updatedCart, some updatedCart)

/-- `clear` from `src/convex-dev/cart.ts`. -/
def clear (st : Store) (sessionId : String) : Store :=
  storeDelete st sessionId

/-- `get` from `src/convex-dev/cart.ts`. -/
def get (st : Store) (sessionId : String) : Option Cart :=
  storeGet st sessionId

end ConvexDev

/-!
## Listener / notification model

`src/convex/cart.ts` keeps `let listeners: Set<() => void> = new Set()` and
`const notifyListeners = () => listeners.forEach((l) => l())`.  Every
mutation calls `notifyListeners()` once, as its last statement, after the
store has been updated; queries never call it.  Callbacks are opaque: the
trace records, for each invocation, which registered callback ran and the
store contents visible to it at that moment.
-/

/-- The module-level state of `src/convex/cart.ts`: the cart store plus the
set of subscribed callbacks (identified by ids; a JavaScript `Set` holds
each callback at most once). -/
structure CartModuleState where
  store : Store
  listeners : List String

/-- One observable callback invocation: which callback ran, and the cart
store it can read when it runs. -/
def NotifyEvent : Type := String × Store

/-- `notifyListeners` from `src/convex/cart.ts` line 13: invokes every
currently registered callback once, each seeing the current store. -/
def notifyListeners (listeners : List String) (st : Store) : List NotifyEvent :=
  listeners.map (fun l => (l, st))

namespace Convex

/-- `addItem` together with its notification trace: the store is updated
first (lines 37-82), then `notifyListeners()` runs (line 84). -/
def addItemT (s : CartModuleState) (args : AddItemArgs)
    (newItemId newCartId : String) (now : Int) :
    CartModuleState × Cart × List NotifyEvent :=
  let r := addItem s.store args newItemId newCartId now
  ({ s with store := r.1 }, r.2, notifyListeners s.listeners r.1)

/-- `removeItem` with its notification trace (notify at line 100, after the
update; the early `return null` path never notifies). -/
def removeItemT (s : CartModuleState) (sessionId itemId : String) (now : Int) :
    CartModuleState × Option Cart × List NotifyEvent :=
  match storeGet s.store sessionId with
  | none => (s, none, [])
  | some _ =>
      let r := removeItem s.store sessionId itemId now
      ({ s with store := r.1 }, r.2, notifyListeners s.listeners r.1)

/-- `updateQuantity` with its notification trace (notify at line 128; note
the source notifies even when the item was not found, but only after the
early `return null` guard). -/
def updateQuantityT (s : CartModuleState) (sessionId itemId : String)
    (quantity : Int) (now : Int) :
    CartModuleState × Option Cart × List NotifyEvent :=
  match storeGet s.store sessionId with
  | none => (s, none, [])
  | some _ =>
      let r := updateQuantity s.store sessionId itemId quantity now
      ({ s with store := r.1 }, r.2, notifyListeners s.listeners r.1)

/-- `clear` with its notification trace (delete at line 137, notify at
line 138). -/
def clearT (s : CartModuleState) (sessionId : String) :
    CartModuleState × List NotifyEvent :=
  let st := clear s.store sessionId
  ({ s with store := st }, notifyListeners s.listeners st)

/-- `get` with its (empty) notification trace: the query only reads the
store. -/
def getT (s : CartModuleState) (sessionId : String) :
    CartModuleState × Option Cart × List NotifyEvent :=
  (s, get s.store sessionId, [])

/-- `getItemCount` with its (empty) notification trace. -/
def getItemCountT (s : CartModuleState) (sessionId : String) :
    CartModuleState × Int × List NotifyEvent :=
  (s, getItemCount s.store sessionId, [])

/-- `hasTree` with its (empty) notification trace. -/
def hasTreeT (s : CartModuleState) (sessionId : String) :
    CartModuleState × Bool × List NotifyEvent :=
  (s, hasTree s.store sessionId, [])

/-- `getTree` with its (empty) notification trace. -/
def getTreeT (s : CartModuleState) (sessionId : String) :
    CartModuleState × Option CartItem × List NotifyEvent :=
  (s, getTree s.store sessionId, [])

end Convex

/-!
## Heap model for object identity

`src/convex/cart.ts` mutates cart objects in place (`cart.items = ...`,
`cart.subtotal = ...`), while `src/convex-dev/orders.ts` `create` stores
the `cartSnapshot` argument — a reference to whatever cart object the
caller passes — inside the order.  To reason about what happens to an
order's snapshot under later cart mutations, this model makes object
identity explicit for the single session the app uses
(`handleCheckout` hard-codes `sessionId: 'local-session'` and the UI cart
store works with one session id): the heap is a list of cart objects,
a reference is an index into it, and the session's `Map` entry is an
optional reference.  In-place mutation writes through the reference;
creating a cart allocates a fresh cell at the end of the heap.
-/

/-- Heap-level state of the cart module for the app's single session. -/
structure HeapState where
  cartRef : Option Nat
  heap : List Cart

/-- Heap read: dereference a cart object. -/
def heapGet (s : HeapState) (r : Nat) : Cart :=
  s.heap.getD r default

/-- `addItem` at the heap level: an existing cart object is mutated in
place through the session's reference, a missing cart is freshly
allocated and the session keyed to it. -/
def haddItem (s : HeapState) (args : AddItemArgs) (newItemId newCartId : String)
    (now : Int) : HeapState × Cart :=
  match s.cartRef with
  | some r =>
      let cart := Convex.addItemToCart (heapGet s r) args newItemId now
      ({ s with heap := s.heap.set r cart }, cart)
  | none =>
      let cart := Convex.mkNewCart args newItemId newCartId now
      ({ cartRef := some s.heap.length, heap := s.heap ++ [cart] }, cart)

/-- `removeItem` at the heap level: mutates the existing cart object in
place (`cart.items = cart.items.filter(...)`). -/
def hremoveItem (s : HeapState) (itemId : String) (now : Int) :
    HeapState × Option Cart :=
  match s.cartRef with
  | none => (s, none)
  | some r =>
      let cart := Convex.removeFromCart (heapGet s r) itemId now
      ({ s with heap := s.heap.set r cart }, some cart)

/-- `updateQuantity` at the heap level: mutates the existing cart object in
place when the item is found, otherwise touches nothing. -/
def hupdateQuantity (s : HeapState) (itemId : String) (quantity : Int)
    (now : Int) : HeapState × Option Cart :=
  match s.cartRef with
  | none => (s, none)
  | some r =>
      let cart := heapGet s r
      match cart.items.find? (fun i => i.id = itemId) with
      | some _ =>
          let cart := Convex.updateQuantityInCart cart itemId quantity now
          ({ s with heap := s.heap.set r cart }, some cart)
      | none => (s, some cart)

/-- `clear` at the heap level: drops the session's map entry; the cart
object itself survives on the heap (other references may still see it). -/
def hclear (s : HeapState) : HeapState :=
  { s with cartRef := none }

/-- One cart mutation, for reasoning about arbitrary mutation sequences. -/
inductive CartOp where
  | add (args : AddItemArgs) (newItemId newCartId : String) (now : Int)
  | remove (itemId : String) (now : Int)
  | update (itemId : String) (quantity : Int) (now : Int)
  | clearCart

/-- Apply one mutation at the heap level. -/
def hstep (s : HeapState) : CartOp → HeapState
  | .add args newItemId newCartId now => (haddItem s args newItemId newCartId now).1
  | .remove itemId now => (hremoveItem s itemId now).1
  | .update itemId quantity now => (hupdateQuantity s itemId quantity now).1
  | .clearCart => hclear s

/-- Apply a sequence of mutations at the heap level. -/
def hrun (s : HeapState) (ops : List CartOp) : HeapState :=
  ops.foldl hstep s

/-- An order as far as its cart snapshot is concerned.  `create` in
`src/convex-dev/orders.ts` (lines 20-56) stores the `cartSnapshot`
argument in the order record; in the heap model that argument is the
reference to the caller's cart object. -/
structure HOrder where
  cartSnapshotRef : Nat

/-- `create` from `src/convex-dev/orders.ts`, restricted to the snapshot:
the order keeps a reference to the cart object it was given, and the cart
store is not touched. -/
def ordersCreate (s : HeapState) (cartSnapshotRef : Nat) : HeapState × HOrder :=
  (s, { cartSnapshotRef := cartSnapshotRef })

/-- `handleCheckout` from the main app component, restricted to its effect
on cart state: it snapshots the current cart object into the order
(`cartSnapshot: cartStore.cart` — a reference, not a copy) and then clears
the cart (`await cartStore.clearCart()`). -/
def handleCheckoutSnapshot (s : HeapState) (r : Nat)
    (_h : s.cartRef = some r) : HeapState × HOrder :=
  (hclear s, { cartSnapshotRef := r })

/-!
## Checkout totals

`handleCheckout` in the main app component computes, from the current cart
subtotal (in cents):

    const shippingCost = cartStore.subtotal >= 50000 ? 0 : 1999;
    const tax = Math.round(cartStore.subtotal * 0.08);
    const total = cartStore.subtotal + shippingCost + tax;

and builds a mock `Order` with `status: 'paid'`.  `Math.round` is modelled
as exact rounding of the rational `subtotal * 8/100` (rounding half
towards positive infinity, which is `Math.round`'s tie rule); the binary
floating-point representation of the literal `0.08` is below the
granularity of this embedding.
-/

/-- `Math.round`: round half towards positive infinity. -/
def jsRound (x : ℚ) : ℤ :=
  ⌊x + 1 / 2⌋

/-- The fields of the mock order built by `handleCheckout` that the
embedding tracks. -/
structure MockOrder where
  id : String
  sessionId : String
  cartSnapshot : Cart
  stripeSessionId : String
  status : String
  subtotal : Int
  shippingCost : Int
  tax : Int
  total : Int
  createdAt : Int
  paidAt : Int
deriving DecidableEq, Repr

/-- `handleCheckout` from the main app component (value level): returns
early when there is no cart (`if (!cartStore.cart) return`), otherwise
builds the mock order from the cart subtotal
(`cartStore.subtotal` is `cart?.subtotal || 0`). -/
def handleCheckout (cart : Option Cart) (orderId stripeId : String)
    (now : Int) : Option MockOrder :=
  match cart with
  | none => none
  | some c =>
      let subtotal := c.subtotal
      let shippingCost : Int := if subtotal ≥ 50000 then 0 else 1999
      let tax : Int := jsRound ((subtotal : ℚ) * (8 / 100))
      let total := subtotal + shippingCost + tax
      some
        { id := orderId
          sessionId := "local-session"
          cartSnapshot := c
          stripeSessionId := stripeId
          status := "paid"
          subtotal := subtotal
          shippingCost := shippingCost
          tax := tax
          total := total
          createdAt := now
          paidAt := now }

/-!
## Invariants
-/

/-- The subtotal invariant of a cart: the stored subtotal is what
`calculateCartTotal` computes from the items. -/
def cartInv (c : Cart) : Prop :=
  c.subtotal = calculateCartTotal c.items

/-- Whether an item is a tree or a topper. -/
def isTT (item : CartItem) : Bool :=
  item.productType = .tree ∨ item.productType = .topper

/-- Ordered-pair constraint behind the tree/topper invariant: of two items
sharing a productId, the later one is never a tree or topper. -/
def ttOk (a b : CartItem) : Prop :=
  a.productId = b.productId → isTT b = false

/-- The tree/topper invariant that the code actually maintains: among the
items sharing any given productId, only the first may be a tree or a
topper (hence at most one tree-or-topper item per productId). -/
def TTInv (items : List CartItem) : Prop :=
  items.Pairwise ttOk

/-- A concrete ornament item used by witnesses and counterexamples. -/
def itemW : CartItem :=
  { id := "i1", productType := .ornament, productId := "p",
    quantity := 1, unitPrice := 100, customization := none }

/-- A concrete one-item cart (with correct subtotal) used by witnesses and
counterexamples. -/
def cartW : Cart :=
  { id := "c1", sessionId := "s", items := [itemW], subtotal := 100,
    createdAt := 0, updatedAt := 0 }

/-- A concrete store holding `cartW` under session `"s"`. -/
def storeW : Store := storeSet emptyStore "s" cartW

/-- Concrete `addItem` arguments for a tree product `"a"`. -/
def treeArgsA : AddItemArgs :=
  { sessionId := "s", productType := .tree, productId := "a",
    quantity := 1, unitPrice := 10000, customization := none }

/-- Concrete `addItem` arguments for a tree product `"b"`. -/
def treeArgsB : AddItemArgs :=
  { sessionId := "s", productType := .tree, productId := "b",
    quantity := 1, unitPrice := 20000, customization := none }

/-- Concrete `addItem` arguments for an ornament product. -/
def ornamentArgs (productId : String) (unitPrice : Int) : AddItemArgs :=
  { sessionId := "s", productType := .ornament, productId := productId,
    quantity := 1, unitPrice := unitPrice, customization := none }

/-- The mock order `handleCheckout` builds from `cartW` (subtotal 100
cents: shipping 1999, tax `round(8)` = 8, total 2107). -/
def orderW : MockOrder :=
  { id := "o1", sessionId := "local-session", cartSnapshot := cartW,
    stripeSessionId := "st1", status := "paid", subtotal := 100,
    shippingCost := 1999, tax := 8, total := 2107, createdAt := 9,
    paidAt := 9 }

/-!
## Basic lemmas about `calculateCartTotal` and the store
-/

theorem calculateCartTotal_go (l : List CartItem) (a : Int) :
    l.foldl (fun sum item => sum + item.unitPrice * item.quantity) a
      = a + calculateCartTotal l := by
  induction l generalizing a with
  | nil => simp [calculateCartTotal]
  | cons x xs ih =>
      simp only [calculateCartTotal, List.foldl_cons] at *
      rw [ih, ih (0 + x.unitPrice * x.quantity)]
      ring

theorem calculateCartTotal_cons (x : CartItem) (xs : List CartItem) :
    calculateCartTotal (x :: xs)
      = x.unitPrice * x.quantity + calculateCartTotal xs := by
  show (x :: xs).foldl _ 0 = _
  rw [List.foldl_cons, calculateCartTotal_go]
  ring

theorem calculateCartTotal_append (l₁ l₂ : List CartItem) :
    calculateCartTotal (l₁ ++ l₂)
      = calculateCartTotal l₁ + calculateCartTotal l₂ := by
  induction l₁ with
  | nil => simp [calculateCartTotal]
  | cons x xs ih =>
      rw [List.cons_append, calculateCartTotal_cons, calculateCartTotal_cons, ih]
      ring

theorem storeGet_set_self (st : Store) (sid : String) (c : Cart) :
    storeGet (storeSet st sid c) sid = some c := by
  simp [storeGet, storeSet]

theorem cartInv_addItemToCart (cart : Cart) (args : AddItemArgs)
    (newItemId : String) (now : Int) :
    cartInv (Convex.addItemToCart cart args newItemId now) := by
  simp [cartInv, Convex.addItemToCart]

theorem cartInv_mkNewCart (args : AddItemArgs) (newItemId newCartId : String)
    (now : Int) : cartInv (Convex.mkNewCart args newItemId newCartId now) := by
  simp [cartInv, Convex.mkNewCart, Convex.mkNewItem, calculateCartTotal_cons,
    calculateCartTotal]

theorem cartInv_removeFromCart (cart : Cart) (itemId : String) (now : Int) :
    cartInv (Convex.removeFromCart cart itemId now) := by
  simp [cartInv, Convex.removeFromCart]

theorem cartInv_updateQuantityInCart (cart : Cart) (itemId : String)
    (quantity now : Int) (h : cartInv cart) :
    cartInv (Convex.updateQuantityInCart cart itemId quantity now) := by
  rcases hfind : cart.items.find? (fun i => i.id = itemId) with _ | item
  · simpa [Convex.updateQuantityInCart, hfind] using h
  · simp [cartInv, Convex.updateQuantityInCart, hfind]

/-- C1: every cart mutation (`addItem`, `removeItem`, `updateQuantity`)
returns, and stores under the session id, a cart whose subtotal equals
`calculateCartTotal` of its items, provided the session's current cart (if
any) already satisfies that invariant. -/
theorem c1_subtotal_recomputed (st : Store) (args : AddItemArgs)
    (newItemId newCartId itemId : String) (q now : Int)
    (hinv : ∀ c, storeGet st args.sessionId = some c → cartInv c) :
    (cartInv (Convex.addItem st args newItemId newCartId now).2 ∧
      storeGet (Convex.addItem st args newItemId newCartId now).1
          args.sessionId
        = some (Convex.addItem st args newItemId newCartId now).2) ∧
    (∀ c', (Convex.removeItem st args.sessionId itemId now).2 = some c' →
      cartInv c' ∧
        storeGet (Convex.removeItem st args.sessionId itemId now).1
            args.sessionId
          = some c') ∧
    (∀ c', (Convex.updateQuantity st args.sessionId itemId q now).2
          = some c' →
      cartInv c' ∧
        storeGet (Convex.updateQuantity st args.sessionId itemId q now).1
            args.sessionId
          = some c') := by
  refine ⟨?_, ?_, ?_⟩
  · rcases h : storeGet st args.sessionId with _ | c
    · simp [Convex.addItem, h, cartInv_mkNewCart, storeGet_set_self]
    · simp [Convex.addItem, h, cartInv_addItemToCart, storeGet_set_self]
  · rcases h : storeGet st args.sessionId with _ | c
    · simp [Convex.removeItem, h]
    · intro c' hc'
      simp only [Convex.removeItem, h, Option.some.injEq] at hc' ⊢
      refine ⟨?_, ?_⟩
      · rw [← hc']
        exact cartInv_removeFromCart c itemId now
      · rw [← hc']
        exact storeGet_set_self st args.sessionId _
  · rcases h : storeGet st args.sessionId with _ | c
    · simp [Convex.updateQuantity, h]
    · intro c' hc'
      rcases hfind : c.items.find? (fun i => i.id = itemId) with _ | item
      · simp only [Convex.updateQuantity, h, hfind, Option.some.injEq] at hc' ⊢
        refine ⟨?_, ?_⟩
        · rw [← hc']
          exact hinv c h
        · exact hc'
      · simp only [Convex.updateQuantity, h, hfind, Option.some.injEq] at hc' ⊢
        refine ⟨?_, ?_⟩
        · rw [← hc']
          exact cartInv_updateQuantityInCart c itemId q now (hinv c h)
        · rw [← hc']
          exact storeGet_set_self st args.sessionId _

/-- Witness for C1 at a concrete input (empty store, ornament add). -/
theorem c1_subtotal_recomputed_witness :
    (∀ c, storeGet emptyStore "s" = some c → cartInv c) ∧
    ((cartInv (Convex.addItem emptyStore (ornamentArgs "p" 500) "i1" "c1" 7).2 ∧
      storeGet (Convex.addItem emptyStore (ornamentArgs "p" 500) "i1" "c1" 7).1
          (ornamentArgs "p" 500).sessionId
        = some (Convex.addItem emptyStore (ornamentArgs "p" 500) "i1" "c1" 7).2) ∧
    (∀ c', (Convex.removeItem emptyStore (ornamentArgs "p" 500).sessionId "x" 7).2
          = some c' →
      cartInv c' ∧
        storeGet
            (Convex.removeItem emptyStore (ornamentArgs "p" 500).sessionId "x" 7).1
            (ornamentArgs "p" 500).sessionId
          = some c') ∧
    (∀ c', (Convex.updateQuantity emptyStore (ornamentArgs "p" 500).sessionId "x" 2 7).2
          = some c' →
      cartInv c' ∧
        storeGet
            (Convex.updateQuantity emptyStore (ornamentArgs "p" 500).sessionId "x" 2 7).1
            (ornamentArgs "p" 500).sessionId
          = some c')) :=
  ⟨(fun _ h => nomatch h),
    c1_subtotal_recomputed emptyStore (ornamentArgs "p" 500) "i1" "c1" "x" 2 7
      (fun _ h => nomatch h)⟩

/-- C5: `removeItem` and `updateQuantity` return `null` exactly when the
session has no cart, and in that case the store is left unchanged (both
operations are total functions of the embedding — the source has no
`throw` on any path). -/
theorem c5_null_iff_no_cart (st : Store) (sid itemId : String) (q now : Int) :
    ((Convex.removeItem st sid itemId now).2 = none ↔ storeGet st sid = none) ∧
    ((Convex.updateQuantity st sid itemId q now).2 = none ↔
      storeGet st sid = none) ∧
    (storeGet st sid = none →
      (Convex.removeItem st sid itemId now).1 = st ∧
      (Convex.updateQuantity st sid itemId q now).1 = st) := by
  rcases h : storeGet st sid with _ | c
  · simp [Convex.removeItem, Convex.updateQuantity, h]
  · refine ⟨?_, ?_, ?_⟩
    · simp [Convex.removeItem, h]
    · rcases hfind : c.items.find? (fun i => i.id = itemId) with _ | item <;>
        simp [Convex.updateQuantity, h, hfind]
    · intro hnone
      simp [h] at hnone

/-- `addItemToCart` appends when the replace condition (productId match
together with tree/topper product type) fails. -/
theorem addItemToCart_append (cart : Cart) (args : AddItemArgs)
    (newItemId : String) (now : Int)
    (h : ¬ (cart.items.findIdx (Convex.matchesExisting args)
          < cart.items.length ∧
        (args.productType = .tree ∨ args.productType = .topper))) :
    Convex.addItemToCart cart args newItemId now
      = { cart with
          items := cart.items ++ [Convex.mkNewItem args newItemId]
          subtotal :=
            calculateCartTotal (cart.items ++ [Convex.mkNewItem args newItemId])
          updatedAt := now } := by
  simp only [Convex.addItemToCart]
  rw [if_neg h]

/-- `addItemToCart` replaces in place when the replace condition holds. -/
theorem addItemToCart_set (cart : Cart) (args : AddItemArgs)
    (newItemId : String) (now : Int)
    (h : cart.items.findIdx (Convex.matchesExisting args)
          < cart.items.length ∧
        (args.productType = .tree ∨ args.productType = .topper)) :
    Convex.addItemToCart cart args newItemId now
      = { cart with
          items := cart.items.set
            (cart.items.findIdx (Convex.matchesExisting args))
            (Convex.mkNewItem args newItemId)
          subtotal :=
            calculateCartTotal (cart.items.set
              (cart.items.findIdx (Convex.matchesExisting args))
              (Convex.mkNewItem args newItemId))
          updatedAt := now } := by
  simp only [Convex.addItemToCart]
  rw [if_pos h]

/-- Adding an ornament always appends, so it adds exactly
`unitPrice * quantity` to an invariant-satisfying subtotal. -/
theorem addItemToCart_ornament_subtotal (cart : Cart) (args : AddItemArgs)
    (newItemId : String) (now : Int) (h : args.productType = .ornament)
    (hinv : cartInv cart) :
    (Convex.addItemToCart cart args newItemId now).subtotal
      = cart.subtotal + args.unitPrice * args.quantity := by
  have hcond : ¬ (cart.items.findIdx (Convex.matchesExisting args)
        < cart.items.length ∧
      (args.productType = .tree ∨ args.productType = .topper)) := by
    rintro ⟨-, h2 | h2⟩ <;> rw [h] at h2 <;> cases h2
  rw [addItemToCart_append cart args newItemId now hcond]
  show calculateCartTotal _ = _
  rw [calculateCartTotal_append, calculateCartTotal_cons, ← hinv]
  show cart.subtotal + (args.unitPrice * args.quantity + calculateCartTotal [])
    = _
  rw [show calculateCartTotal [] = 0 from rfl]
  ring

/-- C9: for an existing cart satisfying the subtotal invariant,
`updateQuantity` with a non-positive quantity yields the same items and
the same subtotal as `removeItem` on the same item id. -/
theorem c9_nonpositive_update_is_remove (st : Store) (sid itemId : String)
    (q now : Int) (c : Cart) (hc : storeGet st sid = some c)
    (hinv : cartInv c) (hq : q ≤ 0) :
    (Convex.updateQuantity st sid itemId q now).2.map Cart.items
        = (Convex.removeItem st sid itemId now).2.map Cart.items ∧
    (Convex.updateQuantity st sid itemId q now).2.map Cart.subtotal
        = (Convex.removeItem st sid itemId now).2.map Cart.subtotal := by
  have hu2 : (Convex.removeItem st sid itemId now).2
      = some (Convex.removeFromCart c itemId now) := by
    simp [Convex.removeItem, hc]
  rcases hfind : c.items.find? (fun i => i.id = itemId) with _ | item
  · have hfilter : c.items.filter (fun item => item.id ≠ itemId) = c.items := by
      rw [List.filter_eq_self]
      intro a ha
      have := List.find?_eq_none.mp hfind a ha
      simpa using this
    have hu1 : (Convex.updateQuantity st sid itemId q now).2 = some c := by
      simp [Convex.updateQuantity, hc, hfind]
    constructor
    · simp only [hu1, hu2, Option.map_some', Convex.removeFromCart]
      rw [hfilter]
    · simp only [hu1, hu2, Option.map_some', Convex.removeFromCart]
      rw [hfilter]
      exact congrArg some hinv
  · have hu1 : (Convex.updateQuantity st sid itemId q now).2
        = some (Convex.updateQuantityInCart c itemId q now) := by
      simp [Convex.updateQuantity, hc, hfind]
    have hui : Convex.updateQuantityInCart c itemId q now
        = Convex.removeFromCart c itemId now := by
      simp only [Convex.updateQuantityInCart, hfind, Convex.removeFromCart]
      rw [if_pos hq]
    rw [hu1, hu2, hui]
    exact ⟨rfl, rfl⟩

/-- Witness for C9 at a concrete input. -/
theorem c9_nonpositive_update_is_remove_witness :
    storeGet storeW "s" = some cartW ∧ cartInv cartW ∧ (0 : Int) ≤ 0 ∧
    ((Convex.updateQuantity storeW "s" "i1" 0 5).2.map Cart.items
        = (Convex.removeItem storeW "s" "i1" 5).2.map Cart.items ∧
      (Convex.updateQuantity storeW "s" "i1" 0 5).2.map Cart.subtotal
        = (Convex.removeItem storeW "s" "i1" 5).2.map Cart.subtotal) :=
  ⟨by decide, by unfold cartInv; decide, by decide,
    c9_nonpositive_update_is_remove storeW "s" "i1" 0 5 cartW (by decide)
      (by unfold cartInv; decide) (by decide)⟩

/-- C7: two ornament `addItem` calls with quantity 1 and unit prices `p₁`
and `p₂` increase the subtotal by exactly `p₁ + p₂`, starting from any
session state (absent cart counting as subtotal 0) whose cart satisfies
the subtotal invariant. -/
theorem c7_two_ornaments_increase_subtotal (st : Store) (sid p1 p2 : String)
    (price1 price2 : Int) (cu1 cu2 : Option CartItemCustomization)
    (i1 d1 i2 d2 : String) (t1 t2 : Int)
    (hinv : ∀ c, storeGet st sid = some c → cartInv c) :
    (Convex.addItem
        (Convex.addItem st
          { sessionId := sid, productType := .ornament, productId := p1,
            quantity := 1, unitPrice := price1, customization := cu1 }
          i1 d1 t1).1
        { sessionId := sid, productType := .ornament, productId := p2,
          quantity := 1, unitPrice := price2, customization := cu2 }
        i2 d2 t2).2.subtotal
      = (match storeGet st sid with
          | some c => c.subtotal
          | none => 0) + price1 + price2 := by
  rcases h : storeGet st sid with _ | c
  · simp only [Convex.addItem, h, storeGet_set_self]
    rw [addItemToCart_ornament_subtotal _ _ _ _ rfl (cartInv_mkNewCart ..)]
    simp [Convex.mkNewCart]
  · simp only [Convex.addItem, h, storeGet_set_self]
    rw [addItemToCart_ornament_subtotal _ _ _ _ rfl (cartInv_addItemToCart ..),
      addItemToCart_ornament_subtotal _ _ _ _ rfl (hinv c h)]
    ring

/-- Witness for C7 at a concrete input (empty session). -/
theorem c7_two_ornaments_increase_subtotal_witness :
    (∀ c, storeGet emptyStore "s" = some c → cartInv c) ∧
    (Convex.addItem
        (Convex.addItem emptyStore
          { sessionId := "s", productType := .ornament, productId := "p1",
            quantity := 1, unitPrice := 300, customization := none }
          "i1" "d1" 1).1
        { sessionId := "s", productType := .ornament, productId := "p2",
          quantity := 1, unitPrice := 450, customization := none }
        "i2" "d2" 2).2.subtotal
      = (match storeGet emptyStore "s" with
          | some c => c.subtotal
          | none => 0) + 300 + 450 :=
  ⟨(fun _ h => nomatch h),
    c7_two_ornaments_increase_subtotal emptyStore "s" "p1" "p2" 300 450
      none none "i1" "d1" "i2" "d2" 1 2 (fun _ h => nomatch h)⟩

/-- For tree/topper additions the `findIndex` callback degenerates to a
productId comparison. -/
theorem matchesExisting_tt (args : AddItemArgs)
    (h : args.productType = .tree ∨ args.productType = .topper) :
    Convex.matchesExisting args
      = fun item => item.productId == args.productId := by
  funext item
  simp only [Convex.matchesExisting]
  by_cases hp : item.productId = args.productId
  · simp [hp, h]
  · simp [hp]

/-- C3: on an existing cart, `addItem` with a tree or topper whose
productId matches some item replaces the first such item in place (same
number of items); in every other case (ornament, or no productId match)
it appends the new item, leaving the existing items unchanged. -/
theorem c3_replace_vs_append (st : Store) (args : AddItemArgs)
    (newItemId newCartId : String) (now : Int) (c : Cart)
    (hc : storeGet st args.sessionId = some c) :
    ((args.productType = .tree ∨ args.productType = .topper) →
      (∃ item ∈ c.items, item.productId = args.productId) →
      (Convex.addItem st args newItemId newCartId now).2.items
          = c.items.set
              (c.items.findIdx (fun item => item.productId == args.productId))
              (Convex.mkNewItem args newItemId) ∧
        (Convex.addItem st args newItemId newCartId now).2.items.length
          = c.items.length) ∧
    ((args.productType = .ornament ∨
        ∀ item ∈ c.items, item.productId ≠ args.productId) →
      (Convex.addItem st args newItemId newCartId now).2.items
          = c.items ++ [Convex.mkNewItem args newItemId]) := by
  have haddi : (Convex.addItem st args newItemId newCartId now).2
      = Convex.addItemToCart c args newItemId now := by
    simp [Convex.addItem, hc]
  constructor
  · intro htt hex
    have hidx : c.items.findIdx (Convex.matchesExisting args)
        < c.items.length := by
      rw [matchesExisting_tt args htt]
      refine List.findIdx_lt_length_of_exists ?_
      obtain ⟨item, hmem, hpid⟩ := hex
      exact ⟨item, hmem, by simpa using hpid⟩
    rw [haddi, addItemToCart_set c args newItemId now ⟨hidx, htt⟩]
    rw [matchesExisting_tt args htt]
    exact ⟨rfl, by simp⟩
  · intro hcase
    rcases hcase with horn | hnone
    · have hcond : ¬ (c.items.findIdx (Convex.matchesExisting args)
            < c.items.length ∧
          (args.productType = .tree ∨ args.productType = .topper)) := by
        rintro ⟨-, h2 | h2⟩ <;> rw [horn] at h2 <;> cases h2
      rw [haddi, addItemToCart_append c args newItemId now hcond]
    · by_cases htt : args.productType = .tree ∨ args.productType = .topper
      · have hlen : c.items.findIdx (Convex.matchesExisting args)
            = c.items.length := by
          rw [matchesExisting_tt args htt, List.findIdx_eq_length]
          intro x hx
          simpa using hnone x hx
        have hcond : ¬ (c.items.findIdx (Convex.matchesExisting args)
              < c.items.length ∧
            (args.productType = .tree ∨ args.productType = .topper)) := by
          rintro ⟨h1, -⟩
          rw [hlen] at h1
          exact lt_irrefl _ h1
        rw [haddi, addItemToCart_append c args newItemId now hcond]
      · have hcond : ¬ (c.items.findIdx (Convex.matchesExisting args)
              < c.items.length ∧
            (args.productType = .tree ∨ args.productType = .topper)) := by
          rintro ⟨-, h2⟩
          exact htt h2
        rw [haddi, addItemToCart_append c args newItemId now hcond]

/-- Witness for C3 at a concrete input: a tree with the same productId as
the ornament in `cartW` replaces it; a second ornament appends. -/
theorem c3_replace_vs_append_witness :
    storeGet storeW (treeArgsA).sessionId = some cartW ∧
    (((treeArgsA).productType = .tree ∨ (treeArgsA).productType = .topper) →
      (∃ item ∈ cartW.items, item.productId = (treeArgsA).productId) →
      (Convex.addItem storeW treeArgsA "i9" "c9" 3).2.items
          = cartW.items.set
              (cartW.items.findIdx
                (fun item => item.productId == (treeArgsA).productId))
              (Convex.mkNewItem treeArgsA "i9") ∧
        (Convex.addItem storeW treeArgsA "i9" "c9" 3).2.items.length
          = cartW.items.length) ∧
    (((treeArgsA).productType = .ornament ∨
        ∀ item ∈ cartW.items, item.productId ≠ (treeArgsA).productId) →
      (Convex.addItem storeW treeArgsA "i9" "c9" 3).2.items
          = cartW.items ++ [Convex.mkNewItem treeArgsA "i9"]) :=
  ⟨by decide,
    (c3_replace_vs_append storeW treeArgsA "i9" "c9" 3 cartW (by decide)).1,
    (c3_replace_vs_append storeW treeArgsA "i9" "c9" 3 cartW (by decide)).2⟩

/-- A matching item always has the argument's productId (first guard of
the `findIndex` callback). -/
theorem matchesExisting_pid (args : AddItemArgs) (item : CartItem)
    (h : Convex.matchesExisting args item = true) :
    item.productId = args.productId := by
  by_contra hne
  simp [Convex.matchesExisting, hne] at h

/-- `find?` returns the element at `findIdx` (same predicate). -/
theorem find?_eq_get_findIdx {α : Type} (l : List α) (p : α → Bool) (x : α)
    (h : l.find? p = some x) :
    ∃ hlt : l.findIdx p < l.length, l.get ⟨l.findIdx p, hlt⟩ = x := by
  induction l with
  | nil => cases h
  | cons a as ih =>
      by_cases hpa : p a
      · rw [List.find?_cons_of_pos _ hpa] at h
        refine ⟨by simp [List.findIdx_cons, hpa], ?_⟩
        simp only [List.findIdx_cons, hpa, cond_true]
        simpa using h
      · have hpa' : p a = false := by simpa using hpa
        rw [List.find?_cons_of_neg _ (by simpa using hpa)] at h
        obtain ⟨hlt, hget⟩ := ih h
        refine ⟨?_, ?_⟩
        · simp only [List.findIdx_cons, hpa', cond_false, List.length_cons]
          omega
        · simp only [List.findIdx_cons, hpa', cond_false]
          simpa using hget

/-- `TTInv` survives replacing the first item of a given productId by a
new item with that productId. -/
theorem ttInv_set_first (l : List CartItem) (i : Nat) (a : CartItem)
    (hi : i < l.length) (h : TTInv l)
    (hpid : (l.get ⟨i, hi⟩).productId = a.productId)
    (hbefore : ∀ j, (hj : j < l.length) → j < i →
      (l.get ⟨j, hj⟩).productId ≠ a.productId) :
    TTInv (l.set i a) := by
  simp only [TTInv, List.pairwise_iff_getElem, List.get_eq_getElem] at h ⊢
  simp only [List.get_eq_getElem] at hpid hbefore
  intro j k hj hk hjk
  rw [List.length_set] at hj hk
  rw [List.getElem_set, List.getElem_set]
  by_cases hij : i = j
  · subst hij
    rw [if_pos rfl, if_neg (by omega : ¬ i = k)]
    simp only [ttOk]
    intro hp
    exact h i k hi hk hjk (by rw [hpid, hp])
  · rw [if_neg hij]
    by_cases hik : i = k
    · subst hik
      rw [if_pos rfl]
      simp only [ttOk]
      intro hp
      exact absurd hp (hbefore j hj hjk)
    · rw [if_neg hik]
      exact h j k hj hk hjk

/-- `TTInv` survives replacing an item by one with the same productId and
the same tree/topper status (quantity updates). -/
theorem ttInv_set_same (l : List CartItem) (i : Nat) (a : CartItem)
    (hi : i < l.length) (h : TTInv l)
    (hpid : a.productId = (l.get ⟨i, hi⟩).productId)
    (htt : isTT a = isTT (l.get ⟨i, hi⟩)) :
    TTInv (l.set i a) := by
  simp only [TTInv, List.pairwise_iff_getElem, List.get_eq_getElem] at h ⊢
  simp only [List.get_eq_getElem] at hpid htt
  intro j k hj hk hjk
  rw [List.length_set] at hj hk
  rw [List.getElem_set, List.getElem_set]
  by_cases hij : i = j
  · subst hij
    rw [if_pos rfl, if_neg (by omega : ¬ i = k)]
    simp only [ttOk]
    intro hp
    exact h i k hi hk hjk (by rw [← hpid, hp])
  · rw [if_neg hij]
    by_cases hik : i = k
    · subst hik
      rw [if_pos rfl]
      simp only [ttOk]
      intro hp
      rw [htt]
      exact h j i hj hi hjk (by rw [hp, hpid])
    · rw [if_neg hik]
      exact h j k hj hk hjk

/-- `TTInv` survives appending an item that is either not a tree/topper or
has a productId fresh to the list. -/
theorem ttInv_append_one (l : List CartItem) (a : CartItem) (h : TTInv l)
    (ha : isTT a = false ∨ ∀ b ∈ l, b.productId ≠ a.productId) :
    TTInv (l ++ [a]) := by
  simp only [TTInv] at h ⊢
  rw [List.pairwise_append]
  refine ⟨h, List.pairwise_singleton _ _, ?_⟩
  intro b hb x hx
  simp only [List.mem_singleton] at hx
  subst hx
  simp only [ttOk]
  intro hpid
  rcases ha with h1 | h1
  · exact h1
  · exact absurd hpid (h1 b hb)

/-- The tree/topper invariant is preserved by `addItemToCart`. -/
theorem ttInv_addItemToCart (c : Cart) (args : AddItemArgs)
    (newItemId : String) (now : Int) (h : TTInv c.items) :
    TTInv (Convex.addItemToCart c args newItemId now).items := by
  by_cases hcond : c.items.findIdx (Convex.matchesExisting args)
        < c.items.length ∧
      (args.productType = .tree ∨ args.productType = .topper)
  · rw [addItemToCart_set c args newItemId now hcond]
    obtain ⟨hidx, htt⟩ := hcond
    apply ttInv_set_first _ _ _ hidx h
    · have hmatch := List.findIdx_getElem (w := hidx)
      have := matchesExisting_pid args _ (by simpa using hmatch)
      simpa [Convex.mkNewItem] using this
    · intro j hj hjlt
      have hfalse := List.not_of_lt_findIdx (p := Convex.matchesExisting args)
        hjlt
      have heq := congrFun (matchesExisting_tt args htt) (c.items.get ⟨j, hj⟩)
      simp only [List.get_eq_getElem] at heq
      rw [heq] at hfalse
      simp only [Convex.mkNewItem, List.get_eq_getElem]
      simpa using hfalse
  · rw [addItemToCart_append c args newItemId now hcond]
    apply ttInv_append_one _ _ h
    by_cases htt : args.productType = .tree ∨ args.productType = .topper
    · right
      intro b hb
      have hidx : ¬ c.items.findIdx (Convex.matchesExisting args)
          < c.items.length := fun hlt => hcond ⟨hlt, htt⟩
      have hlen : c.items.findIdx (Convex.matchesExisting args)
          = c.items.length :=
        le_antisymm (List.findIdx_le_length _) (le_of_not_lt hidx)
      have hall := List.findIdx_eq_length.mp hlen b hb
      rw [matchesExisting_tt args htt] at hall
      simp only [Convex.mkNewItem]
      simpa using hall
    · left
      simp only [isTT, Convex.mkNewItem]
      exact decide_eq_false htt

/-- The tree/topper invariant is preserved by `updateQuantityInCart`. -/
theorem ttInv_updateQuantityInCart (c : Cart) (itemId : String)
    (q now : Int) (h : TTInv c.items) :
    TTInv (Convex.updateQuantityInCart c itemId q now).items := by
  rcases hfind : c.items.find? (fun i => i.id = itemId) with _ | item
  · simpa [Convex.updateQuantityInCart, hfind] using h
  · simp only [Convex.updateQuantityInCart, hfind]
    by_cases hq : q ≤ 0
    · rw [if_pos hq]
      exact List.Pairwise.filter _ h
    · rw [if_neg hq]
      obtain ⟨hlt, hget⟩ := find?_eq_get_findIdx _ _ _ hfind
      apply ttInv_set_same _ _ _ hlt h
      · rw [hget]
      · rw [hget]
        simp [isTT]

/-- `TTInv` bounds the number of tree/topper items of any productId by
one. -/
theorem ttInv_countP (l : List CartItem) (h : TTInv l) (p : String) :
    l.countP (fun item => item.productId == p && isTT item) ≤ 1 := by
  induction l with
  | nil => simp
  | cons x xs ih =>
      simp only [TTInv] at h
      rw [List.pairwise_cons] at h
      obtain ⟨hhead, htail⟩ := h
      rw [List.countP_cons]
      by_cases hx : (x.productId == p && isTT x) = true
      · have hzero : xs.countP (fun item => item.productId == p && isTT item)
            = 0 := by
          rw [List.countP_eq_zero]
          intro y hy
          simp only [Bool.and_eq_true, beq_iff_eq] at hx ⊢
          rintro ⟨hyp, hytt⟩
          obtain ⟨hxp, -⟩ := hx
          have hfalse : isTT y = false := hhead y hy (by rw [hxp, hyp])
          rw [hfalse] at hytt
          cases hytt
        simp [hx, hzero]
      · simp only [hx, if_false]
        simpa using ih htail

/-- Counterexample to C2 as stated: starting from the empty store, adding
a tree with productId `"a"` and then a tree with productId `"b"` yields a
reachable cart containing two items of productType `tree`. -/
theorem c2_counterexample :
    ((Convex.addItem
        (Convex.addItem emptyStore treeArgsA "i1" "c1" 0).1
        treeArgsB "i2" "c2" 1).2.items.countP
      (fun item => item.productType = .tree)) = 2 := by
  decide

/-- C2 (amended): the invariant the mutations actually preserve is
`TTInv`: among the items sharing any productId, only the first may be a
tree or topper — hence at most one tree-or-topper item per productId
(trees or toppers with distinct productIds can coexist). -/
theorem c2_amended_tt_per_productId (st : Store) (args : AddItemArgs)
    (itemId newItemId newCartId : String) (q now : Int)
    (hinv : ∀ c, storeGet st args.sessionId = some c → TTInv c.items) :
    TTInv (Convex.addItem st args newItemId newCartId now).2.items ∧
    (∀ c', (Convex.removeItem st args.sessionId itemId now).2 = some c' →
      TTInv c'.items) ∧
    (∀ c', (Convex.updateQuantity st args.sessionId itemId q now).2
        = some c' → TTInv c'.items) ∧
    (∀ l, TTInv l → ∀ p,
      l.countP (fun item => item.productId == p && isTT item) ≤ 1) := by
  refine ⟨?_, ?_, ?_, fun l hl p => ttInv_countP l hl p⟩
  · rcases h : storeGet st args.sessionId with _ | c
    · simp only [Convex.addItem, h]
      simp [TTInv, Convex.mkNewCart]
    · simp only [Convex.addItem, h]
      exact ttInv_addItemToCart c args newItemId now (hinv c h)
  · rcases h : storeGet st args.sessionId with _ | c
    · simp [Convex.removeItem, h]
    · intro c' hc'
      simp only [Convex.removeItem, h, Option.some.injEq] at hc'
      rw [← hc']
      exact List.Pairwise.filter _ (hinv c h)
  · rcases h : storeGet st args.sessionId with _ | c
    · simp [Convex.updateQuantity, h]
    · intro c' hc'
      rcases hfind : c.items.find? (fun i => i.id = itemId) with _ | item
      · simp only [Convex.updateQuantity, h, hfind, Option.some.injEq] at hc'
        rw [← hc']
        exact hinv c h
      · simp only [Convex.updateQuantity, h, hfind, Option.some.injEq] at hc'
        rw [← hc']
        exact ttInv_updateQuantityInCart c itemId q now (hinv c h)

/-- Witness for the amended C2 at a concrete input (empty session, tree
add). -/
theorem c2_amended_tt_per_productId_witness :
    (∀ c, storeGet emptyStore (treeArgsA).sessionId = some c → TTInv c.items) ∧
    (TTInv (Convex.addItem emptyStore treeArgsA "i1" "c1" 0).2.items ∧
      (∀ c', (Convex.removeItem emptyStore (treeArgsA).sessionId "x" 0).2
          = some c' → TTInv c'.items) ∧
      (∀ c', (Convex.updateQuantity emptyStore (treeArgsA).sessionId "x" 2 0).2
          = some c' → TTInv c'.items) ∧
      (∀ l, TTInv l → ∀ p,
        l.countP (fun item => item.productId == p && isTT item) ≤ 1)) :=
  ⟨(fun _ h => nomatch h),
    c2_amended_tt_per_productId emptyStore treeArgsA "x" "i1" "c1" 2 0
      (fun _ h => nomatch h)⟩

/-- Counterexample to C6 as stated: `updateQuantity` on an item id absent
from an existing cart returns a cart with refreshed `updatedAt` (and
recomputed subtotal) in `src/convex-dev/cart.ts` but returns the cart
untouched in `src/convex/cart.ts`, so with identical stores, arguments
and timestamps the two modules return different values. -/
theorem c6_counterexample :
    (Convex.updateQuantity storeW "s" "missing" 2 5).2
      ≠ (ConvexDev.updateQuantity storeW "s" "missing" 2 5).2 := by
  decide

/-- Replacing the first item with a given id (in-place update of the item
found by `find?`) agrees with mapping over all items when the item ids
are distinct. -/
theorem set_findIdx_eq_map_of_nodup (l : List CartItem) (itemId : String)
    (q : Int) (item : CartItem)
    (hfind : l.find? (fun i => i.id = itemId) = some item)
    (hnodup : (l.map CartItem.id).Nodup) :
    l.set (l.findIdx (fun i => i.id = itemId)) { item with quantity := q }
      = l.map (fun it =>
          if it.id = itemId then { it with quantity := q } else it) := by
  induction l with
  | nil => cases hfind
  | cons a as ih =>
      rw [List.map_cons, List.nodup_cons] at hnodup
      by_cases hpa : a.id = itemId
      · rw [List.find?_cons_of_pos _ (by simpa using hpa)] at hfind
        have ha : a = item := by simpa using hfind
        subst ha
        have htail : ∀ b ∈ as, ¬ b.id = itemId := by
          intro b hb hbid
          exact hnodup.1 (by
            rw [hpa, ← hbid]
            exact List.mem_map_of_mem CartItem.id hb)
        have hmap : as.map (fun it =>
            if it.id = itemId then { it with quantity := q } else it) = as := by
          rw [List.map_congr_left (g := fun it => it) ?_]
          · simp
          · intro b hb
            simp [htail b hb]
        simp only [List.findIdx_cons, hpa, decide_True, cond_true,
          List.set_cons_zero, List.map_cons, if_pos hpa, hmap, if_true]
      · rw [List.find?_cons_of_neg _ (by simpa using hpa)] at hfind
        simp only [List.findIdx_cons, hpa, decide_False, cond_false,
          List.set_cons_succ, List.map_cons, if_neg hpa, if_false]
        rw [ih hfind hnodup.2]

/-- C6 (amended): `get`, `addItem`, `removeItem` and `clear` of
`src/convex/cart.ts` and `src/convex-dev/cart.ts` agree exactly (given the
same generated ids and timestamps), and `updateQuantity` agrees whenever
the session has no cart or the item id occurs in a cart with distinct item
ids; when the item id is absent from an existing invariant-satisfying
cart, both versions keep the same items and subtotal, but `convex` keeps
the old `updatedAt` while `convex-dev` refreshes it. -/
theorem c6_amended_equivalence (st : Store) (args : AddItemArgs)
    (sid itemId newItemId newCartId : String) (q now : Int) :
    Convex.get st sid = ConvexDev.get st sid ∧
    Convex.addItem st args newItemId newCartId now
        = ConvexDev.addItem st args newItemId newCartId now ∧
    Convex.removeItem st sid itemId now
        = ConvexDev.removeItem st sid itemId now ∧
    Convex.clear st sid = ConvexDev.clear st sid ∧
    (storeGet st sid = none →
      Convex.updateQuantity st sid itemId q now
        = ConvexDev.updateQuantity st sid itemId q now) ∧
    (∀ c, storeGet st sid = some c →
      (c.items.map CartItem.id).Nodup →
      (∃ item ∈ c.items, item.id = itemId) →
      Convex.updateQuantity st sid itemId q now
        = ConvexDev.updateQuantity st sid itemId q now) ∧
    (∀ c c₁ c₂, storeGet st sid = some c → cartInv c →
      (∀ item ∈ c.items, item.id ≠ itemId) →
      (Convex.updateQuantity st sid itemId q now).2 = some c₁ →
      (ConvexDev.updateQuantity st sid itemId q now).2 = some c₂ →
      c₁.items = c₂.items ∧ c₁.subtotal = c₂.subtotal ∧
        c₁.updatedAt = c.updatedAt ∧ c₂.updatedAt = now) := by
  refine ⟨rfl, rfl, rfl, rfl, ?_, ?_, ?_⟩
  · intro hnone
    simp [Convex.updateQuantity, ConvexDev.updateQuantity, hnone]
  · intro c hc hnodup hex
    obtain ⟨item, hmem, hid⟩ := hex
    rcases hfind : c.items.find? (fun i => i.id = itemId) with _ | found
    · exact absurd (by simpa using List.find?_eq_none.mp hfind item hmem)
        (by simp [hid])
    · simp only [Convex.updateQuantity, ConvexDev.updateQuantity, hc, hfind,
        Convex.updateQuantityInCart]
      by_cases hq : q ≤ 0
      · rw [if_pos hq, if_pos hq]
      · rw [if_neg hq, if_neg hq,
          set_findIdx_eq_map_of_nodup c.items itemId q found hfind hnodup]
  · intro c c₁ c₂ hc hinv habsent hu1 hu2
    rcases hfind : c.items.find? (fun i => i.id = itemId) with _ | found
    · have hfilter : c.items.filter (fun i => i.id ≠ itemId) = c.items := by
        rw [List.filter_eq_self]
        intro a ha
        simpa using habsent a ha
      have hmap : c.items.map (fun it =>
          if it.id = itemId then { it with quantity := q } else it)
            = c.items := by
        rw [List.map_congr_left (g := fun it => it) ?_]
        · simp
        · intro b hb
          simp [habsent b hb]
      simp only [Convex.updateQuantity, hc, hfind, Option.some.injEq] at hu1
      simp only [ConvexDev.updateQuantity, hc, Option.some.injEq] at hu2
      subst hu1
      subst hu2
      refine ⟨?_, ?_, rfl, rfl⟩
      · by_cases hq : q ≤ 0
        · simp only [if_pos hq, hfilter]
        · simp only [if_neg hq, hmap]
      · by_cases hq : q ≤ 0
        · simp only [if_pos hq, hfilter]
          exact hinv
        · simp only [if_neg hq, hmap]
          exact hinv
    · exact absurd (by simpa using List.find?_some hfind)
        (habsent found (List.mem_of_find?_eq_some hfind))

/-- Witness for the amended C6 at a concrete input. -/
theorem c6_amended_equivalence_witness :
    Convex.get storeW "s" = ConvexDev.get storeW "s" ∧
    Convex.addItem storeW (ornamentArgs "p2" 250) "i2" "c2" 4
        = ConvexDev.addItem storeW (ornamentArgs "p2" 250) "i2" "c2" 4 ∧
    Convex.removeItem storeW "s" "i1" 4
        = ConvexDev.removeItem storeW "s" "i1" 4 ∧
    Convex.clear storeW "s" = ConvexDev.clear storeW "s" ∧
    (storeGet storeW "s" = none →
      Convex.updateQuantity storeW "s" "i1" 3 4
        = ConvexDev.updateQuantity storeW "s" "i1" 3 4) ∧
    (∀ c, storeGet storeW "s" = some c →
      (c.items.map CartItem.id).Nodup →
      (∃ item ∈ c.items, item.id = "i1") →
      Convex.updateQuantity storeW "s" "i1" 3 4
        = ConvexDev.updateQuantity storeW "s" "i1" 3 4) ∧
    (∀ c c₁ c₂, storeGet storeW "s" = some c → cartInv c →
      (∀ item ∈ c.items, item.id ≠ "i1") →
      (Convex.updateQuantity storeW "s" "i1" 3 4).2 = some c₁ →
      (ConvexDev.updateQuantity storeW "s" "i1" 3 4).2 = some c₂ →
      c₁.items = c₂.items ∧ c₁.subtotal = c₂.subtotal ∧
        c₁.updatedAt = c.updatedAt ∧ c₂.updatedAt = 4) :=
  c6_amended_equivalence storeW (ornamentArgs "p2" 250) "s" "i1" "i2" "c2" 3 4

/-- `notifyListeners` invokes exactly the registered callbacks, in
registration order. -/
theorem notifyListeners_fst (listeners : List String) (st : Store) :
    (notifyListeners listeners st).map Prod.fst = listeners := by
  induction listeners with
  | nil => rfl
  | cons x xs ih => simpa [notifyListeners] using ih

/-- Every invocation produced by `notifyListeners` sees the store it was
called with. -/
theorem notifyListeners_snd (listeners : List String) (st : Store) :
    ∀ ev ∈ notifyListeners listeners st, ev.2 = st := by
  intro ev hev
  simp only [notifyListeners, List.mem_map] at hev
  obtain ⟨l, -, rfl⟩ := hev
  rfl

/-- Counterexample to C8 as stated: `removeItem` on a session with no
cart returns early (`if (!cart) return null`) without notifying, so a
registered callback is invoked zero times, not exactly once. -/
theorem c8_counterexample :
    ((Convex.removeItemT ⟨emptyStore, ["l1"]⟩ "s" "i" 0).2.2.map
        Prod.fst).count "l1" = 0 ∧
    (⟨emptyStore, ["l1"]⟩ : CartModuleState).listeners.count "l1" = 1 :=
  ⟨rfl, rfl⟩

/-- C8 (amended): `addItem` and `clear` always, and `removeItem` and
`updateQuantity` whenever the session has a cart (they return early
without notifying otherwise), invoke each currently registered callback
exactly once, after the store update (every invocation sees the
post-mutation store); queries (`get`, `getItemCount`, `hasTree`,
`getTree`) never invoke callbacks and never change state. -/
theorem c8_amended_notifications (s : CartModuleState) (args : AddItemArgs)
    (sid itemId newItemId newCartId : String) (q now : Int) :
    ((Convex.addItemT s args newItemId newCartId now).2.2.map Prod.fst
        = s.listeners ∧
      ∀ ev ∈ (Convex.addItemT s args newItemId newCartId now).2.2,
        ev.2 = (Convex.addItemT s args newItemId newCartId now).1.store) ∧
    ((Convex.clearT s sid).2.map Prod.fst = s.listeners ∧
      ∀ ev ∈ (Convex.clearT s sid).2,
        ev.2 = (Convex.clearT s sid).1.store) ∧
    (∀ c, storeGet s.store sid = some c →
      ((Convex.removeItemT s sid itemId now).2.2.map Prod.fst
          = s.listeners ∧
        ∀ ev ∈ (Convex.removeItemT s sid itemId now).2.2,
          ev.2 = (Convex.removeItemT s sid itemId now).1.store) ∧
      ((Convex.updateQuantityT s sid itemId q now).2.2.map Prod.fst
          = s.listeners ∧
        ∀ ev ∈ (Convex.updateQuantityT s sid itemId q now).2.2,
          ev.2 = (Convex.updateQuantityT s sid itemId q now).1.store)) ∧
    (storeGet s.store sid = none →
      Convex.removeItemT s sid itemId now = (s, none, []) ∧
      Convex.updateQuantityT s sid itemId q now = (s, none, [])) ∧
    (Convex.getT s sid).2.2 = [] ∧ (Convex.getT s sid).1 = s ∧
    (Convex.getItemCountT s sid).2.2 = [] ∧
    (Convex.getItemCountT s sid).1 = s ∧
    (Convex.hasTreeT s sid).2.2 = [] ∧ (Convex.hasTreeT s sid).1 = s ∧
    (Convex.getTreeT s sid).2.2 = [] ∧ (Convex.getTreeT s sid).1 = s := by
  refine ⟨⟨notifyListeners_fst .., fun ev hev => notifyListeners_snd _ _ ev hev⟩,
    ⟨notifyListeners_fst .., fun ev hev => notifyListeners_snd _ _ ev hev⟩, ?_, ?_,
    rfl, rfl, rfl, rfl, rfl, rfl, rfl, rfl⟩
  · intro c hc
    refine ⟨⟨?_, ?_⟩, ⟨?_, ?_⟩⟩
    · simp only [Convex.removeItemT, hc]
      exact notifyListeners_fst ..
    · simp only [Convex.removeItemT, hc]
      exact fun ev hev => notifyListeners_snd _ _ ev hev
    · simp only [Convex.updateQuantityT, hc]
      exact notifyListeners_fst ..
    · simp only [Convex.updateQuantityT, hc]
      exact fun ev hev => notifyListeners_snd _ _ ev hev
  · intro hnone
    constructor <;> simp [Convex.removeItemT, Convex.updateQuantityT, hnone]

/-- Counterexample to C4 as stated: create an order whose `cartSnapshot`
is the session's current cart object without clearing the cart (as
`convex-dev/orders.ts` `create` allows); a subsequent `removeItem`
mutates that very object in place, so the order's snapshot changes. -/
theorem c4_counterexample :
    heapGet (hremoveItem { cartRef := some 0, heap := [cartW] } "i1" 5).1
        (ordersCreate { cartRef := some 0, heap := [cartW] } 0).2.cartSnapshotRef
      ≠ heapGet { cartRef := some 0, heap := [cartW] }
        (ordersCreate { cartRef := some 0, heap := [cartW] } 0).2.cartSnapshotRef := by
  decide

/-- One heap-level mutation cannot touch a cart object that the session
map does not reference. -/
theorem hstep_frame (s : HeapState) (r : Nat) (v : Cart) (op : CartOp)
    (hlen : r < s.heap.length) (hval : s.heap.getD r default = v)
    (href : ∀ r', s.cartRef = some r' → r' ≠ r) :
    r < (hstep s op).heap.length ∧ (hstep s op).heap.getD r default = v ∧
      (∀ r', (hstep s op).cartRef = some r' → r' ≠ r) := by
  cases op with
  | add args newItemId newCartId now =>
      rcases hc : s.cartRef with _ | r'
      · refine ⟨?_, ?_, ?_⟩
        · simp only [hstep, haddItem, hc, List.length_append,
            List.length_singleton]
          omega
        · simp only [hstep, haddItem, hc]
          rw [List.getD_eq_getElem?_getD, List.getElem?_append_left hlen,
            ← List.getD_eq_getElem?_getD]
          exact hval
        · intro r'' h''
          simp only [hstep, haddItem, hc, Option.some.injEq] at h''
          omega
      · have hne : r' ≠ r := href r' hc
        refine ⟨?_, ?_, ?_⟩
        · simpa [hstep, haddItem, hc] using hlen
        · simp only [hstep, haddItem, hc]
          rw [List.getD_eq_getElem?_getD, List.getElem?_set_ne hne,
            ← List.getD_eq_getElem?_getD]
          exact hval
        · intro r'' h''
          simp only [hstep, haddItem, hc, Option.some.injEq] at h''
          exact h'' ▸ hne
  | remove itemId now =>
      rcases hc : s.cartRef with _ | r'
      · refine ⟨?_, ?_, ?_⟩ <;> simp only [hstep, hremoveItem, hc]
        · exact hlen
        · exact hval
        · intro r'' h''
          exact href r'' (hc.symm ▸ h'')
      · have hne : r' ≠ r := href r' hc
        refine ⟨?_, ?_, ?_⟩
        · simpa [hstep, hremoveItem, hc] using hlen
        · simp only [hstep, hremoveItem, hc]
          rw [List.getD_eq_getElem?_getD, List.getElem?_set_ne hne,
            ← List.getD_eq_getElem?_getD]
          exact hval
        · intro r'' h''
          simp only [hstep, hremoveItem, hc, Option.some.injEq] at h''
          exact h'' ▸ hne
  | update itemId quantity now =>
      rcases hc : s.cartRef with _ | r'
      · refine ⟨?_, ?_, ?_⟩ <;> simp only [hstep, hupdateQuantity, hc]
        · exact hlen
        · exact hval
        · intro r'' h''
          exact href r'' (hc.symm ▸ h'')
      · have hne : r' ≠ r := href r' hc
        rcases hfind : (heapGet s r').items.find? (fun i => i.id = itemId)
          with _ | item
        · refine ⟨?_, ?_, ?_⟩ <;>
            simp only [hstep, hupdateQuantity, hc, hfind]
          · exact hlen
          · exact hval
          · intro r'' h''
            simp only [Option.some.injEq] at h''
            exact h'' ▸ hne
        · refine ⟨?_, ?_, ?_⟩
          · simpa [hstep, hupdateQuantity, hc, hfind] using hlen
          · simp only [hstep, hupdateQuantity, hc, hfind]
            rw [List.getD_eq_getElem?_getD, List.getElem?_set_ne hne,
              ← List.getD_eq_getElem?_getD]
            exact hval
          · intro r'' h''
            simp only [hstep, hupdateQuantity, hc, hfind,
              Option.some.injEq] at h''
            exact h'' ▸ hne
  | clearCart =>
      exact ⟨hlen, hval, fun r'' h'' => nomatch h''⟩

/-- A cart object unreachable from the session map stays unchanged under
any sequence of cart mutations. -/
theorem hrun_frame (ops : List CartOp) (s : HeapState) (r : Nat) (v : Cart)
    (hlen : r < s.heap.length) (hval : s.heap.getD r default = v)
    (href : ∀ r', s.cartRef = some r' → r' ≠ r) :
    (hrun s ops).heap.getD r default = v := by
  induction ops generalizing s with
  | nil => exact hval
  | cons op ops ih =>
      obtain ⟨h1, h2, h3⟩ := hstep_frame s r v op hlen hval href
      exact ih (hstep s op) h1 h2 h3

/-- C4 (amended): after `handleCheckout`, which snapshots the current
cart object into the order and then clears the cart, every subsequent
sequence of cart mutations leaves the snapshotted cart object — hence the
order's `cartSnapshot` items and subtotal — unchanged. -/
theorem c4_amended_snapshot_frame (s : HeapState) (r : Nat)
    (h : s.cartRef = some r) (hlen : r < s.heap.length) (ops : List CartOp) :
    heapGet (hrun (handleCheckoutSnapshot s r h).1 ops)
        (handleCheckoutSnapshot s r h).2.cartSnapshotRef
      = heapGet s r := by
  apply hrun_frame
  · exact hlen
  · rfl
  · intro r' h'
    exact absurd h' (by simp [handleCheckoutSnapshot, hclear])

/-- Witness for the amended C4 at a concrete input: checkout of a
one-item cart followed by a `removeItem` and an `addItem`. -/
theorem c4_amended_snapshot_frame_witness :
    ({ cartRef := some 0, heap := [cartW] } : HeapState).cartRef = some 0 ∧
    0 < ({ cartRef := some 0, heap := [cartW] } : HeapState).heap.length ∧
    heapGet
        (hrun (handleCheckoutSnapshot
            { cartRef := some 0, heap := [cartW] } 0 rfl).1
          [CartOp.remove "i1" 5, CartOp.add treeArgsA "i7" "c7" 6])
        (handleCheckoutSnapshot
            { cartRef := some 0, heap := [cartW] } 0 rfl).2.cartSnapshotRef
      = heapGet { cartRef := some 0, heap := [cartW] } 0 :=
  ⟨rfl, by decide,
    c4_amended_snapshot_frame { cartRef := some 0, heap := [cartW] } 0 rfl
      (by decide) [CartOp.remove "i1" 5, CartOp.add treeArgsA "i7" "c7" 6]⟩

/-- C10: the order built by `handleCheckout` has shipping cost 0 exactly
for subtotals of at least 50000 cents and 1999 otherwise, tax
`round(0.08 * subtotal)` (exact-rational rounding), and total
`subtotal + shippingCost + tax`. -/
theorem c10_checkout_totals (c : Cart) (orderId stripeId : String)
    (now : Int) (o : MockOrder)
    (h : handleCheckout (some c) orderId stripeId now = some o) :
    o.subtotal = c.subtotal ∧
    (c.subtotal ≥ 50000 → o.shippingCost = 0) ∧
    (c.subtotal < 50000 → o.shippingCost = 1999) ∧
    o.tax = jsRound ((c.subtotal : ℚ) * (8 / 100)) ∧
    o.total = o.subtotal + o.shippingCost + o.tax := by
  simp only [handleCheckout, Option.some.injEq] at h
  subst h
  refine ⟨rfl, ?_, ?_, rfl, rfl⟩
  · intro hge
    exact if_pos hge
  · intro hlt
    exact if_neg (not_le.mpr hlt)

/-- Witness for C10 at a concrete input (`cartW`, subtotal 100). -/
theorem c10_checkout_totals_witness :
    handleCheckout (some cartW) "o1" "st1" 9 = some orderW ∧
    (orderW.subtotal = cartW.subtotal ∧
      (cartW.subtotal ≥ 50000 → orderW.shippingCost = 0) ∧
      (cartW.subtotal < 50000 → orderW.shippingCost = 1999) ∧
      orderW.tax = jsRound ((cartW.subtotal : ℚ) * (8 / 100)) ∧
      orderW.total = orderW.subtotal + orderW.shippingCost + orderW.tax) := by
  have h : handleCheckout (some cartW) "o1" "st1" 9 = some orderW := by
    simp only [handleCheckout, Option.some.injEq, MockOrder.mk.injEq, cartW,
      orderW]
    norm_num [jsRound]
  exact ⟨h, c10_checkout_totals cartW "o1" "st1" 9 orderW h⟩
